import Mathlib

/-!
# Gift-circle: shallow embedding and verification

Shallow embedding of the round sequence, snapshot builder, claim gating and
commitment-derivation logic of the gift-circle repository, together with
theorems settling the specification claims about that logic.

Sources embedded:
* `src/lib/room-round.ts` — round sequence, `getNextRound`, `canAdvanceRound`.
* `src/app/rooms/[code]/room-status-data.ts` — `sortMembers`, `mapOffers`,
  `mapDesires`, `mapClaims`, the rounds metadata part of `buildSnapshot`.
* `src/app/rooms/[code]/connections/page.tsx` — `canStartClaim` and the
  `myClaimerClaims` view it consults.
* `src/server/export-summary.ts` — `collectMemberCommitments` and the
  claim-processing loop of `collectAllCommitments`.
* `src/app/api/rooms/[code]/enjoyment/route.ts` — the POST handler's
  decision logic.

Conventions: JavaScript `Date` values are embedded as `Nat` millisecond
timestamps (the code only ever compares them through `getTime()`);
`Array.prototype.sort`, which every supported engine implements as a stable
sort, is embedded as `List.mergeSort` (stable) over the boolean relation
`le a b := cmp a b ≤ 0` induced by the JavaScript comparator; nullable
columns are `Option`; ORM relation joins (`claim.offer`, `claim.desire`) are
embedded as list lookups by id, so a dangling or null reference resolves to
`none` exactly as the join materialises `null`.
-/

namespace GiftCircle

/-- The six room rounds, from `RoomRound` in the Prisma schema. -/
inductive RoomRound where
  | WAITING
  | OFFERS
  | DESIRES
  | CONNECTIONS
  | DECISIONS
  | SUMMARY
deriving DecidableEq, Repr

/-- Membership roles. -/
inductive MemberRole where
  | HOST
  | PARTICIPANT
deriving DecidableEq, Repr

/-- Offer/Desire statuses. -/
inductive ItemStatus where
  | OPEN
  | FULFILLED
  | WITHDRAWN
deriving DecidableEq, Repr

/-- Claim statuses. -/
inductive ClaimStatus where
  | PENDING
  | ACCEPTED
  | DECLINED
  | WITHDRAWN
deriving DecidableEq, Repr

/-- Whether a claim targets an offer or a desire. -/
inductive ItemType where
  | offer
  | desire
deriving DecidableEq, Repr

/-- `ROOM_ROUND_SEQUENCE` from `src/lib/room-round.ts`. -/
def ROOM_ROUND_SEQUENCE : List RoomRound :=
  [.WAITING, .OFFERS, .DESIRES, .CONNECTIONS, .DECISIONS, .SUMMARY]

/-- `RoomRoundInfo` from `src/lib/room-round.ts`. -/
structure RoomRoundInfo where
  key : RoomRound
  title : String
  description : String
  guidance : String
deriving DecidableEq, Repr

/-- The `ROUND_INFO` record from `src/lib/room-round.ts`, as a total lookup
(the TypeScript `Record<RoomRound, RoomRoundInfo>` is total over the enum). -/
def getRoundInfo : RoomRound → RoomRoundInfo
  | .WAITING =>
    { key := .WAITING, title := "Waiting Room",
      description := "The host is getting everyone settled before the session begins.",
      guidance := "" }
  | .OFFERS =>
    { key := .OFFERS, title := "Offers",
      description := "Participants share what they would like to offer to the circle.",
      guidance := "Add what you want to offer to others." }
  | .DESIRES =>
    { key := .DESIRES, title := "Desires",
      description := "Participants share what support or items they would like to receive.",
      guidance := "Add what you desire to receive from others." }
  | .CONNECTIONS =>
    { key := .CONNECTIONS, title := "Bids",
      description := "Participants place bids to receive offers or to fulfill desires from others.",
      guidance := "Review others' offers and desires and place bids." }
  | .DECISIONS =>
    { key := .DECISIONS, title := "Decisions",
      description := "Participants review incoming bids and decide which to accept or decline.",
      guidance := "Review your pending bids and make decisions." }
  | .SUMMARY =>
    { key := .SUMMARY, title := "Summary",
      description := "Review the gift circle results and share what you enjoyed.",
      guidance := "See a summary of the gift circle." }

/-- `getNextRound` from `src/lib/room-round.ts`.  The JavaScript code checks
`index === -1` and returns `null`; in the embedding a missing element makes
`indexOf` return the list length, so the final out-of-range lookup yields
`none`, the same result (the branch is unreachable: every round occurs in the
sequence). -/
def getNextRound (current : RoomRound) : Option RoomRound :=
  let index := ROOM_ROUND_SEQUENCE.indexOf current
  if index = ROOM_ROUND_SEQUENCE.length - 1 then
    none
  else
    ROOM_ROUND_SEQUENCE[index + 1]?

/-- `canAdvanceRound` from `src/lib/room-round.ts`:
`getNextRound(current) !== null`. -/
def canAdvanceRound (current : RoomRound) : Bool :=
  (getNextRound current).isSome

/-- `isRoundOrderValid` from `src/lib/room-round.ts`. -/
def isRoundOrderValid (current next : RoomRound) : Bool :=
  ROOM_ROUND_SEQUENCE.indexOf next = ROOM_ROUND_SEQUENCE.indexOf current + 1

/-- A `User` row (the fields the embedded logic reads). -/
structure User where
  id : String
  displayName : Option String
deriving DecidableEq, Repr

/-- A `RoomMembership` row (the fields the embedded logic reads).
`createdAt` is the join timestamp. -/
structure Membership where
  id : String
  roomId : String
  userId : String
  role : MemberRole
  nickname : Option String
  enjoyment : Option String
  readyForRound : Option RoomRound
  createdAt : Nat
deriving DecidableEq, Repr

/-- An `Offer` or `Desire` row; the two tables have identical shape and the
embedded logic treats them uniformly. -/
structure Item where
  id : String
  roomId : String
  authorMembershipId : String
  title : String
  details : Option String
  status : ItemStatus
  createdAt : Nat
  updatedAt : Nat
deriving DecidableEq, Repr

/-- A `Claim` row.  `offerId` and `desireId` are the two nullable target
columns. -/
structure Claim where
  id : String
  roomId : String
  claimerMembershipId : String
  offerId : Option String
  desireId : Option String
  status : ClaimStatus
  note : Option String
  createdAt : Nat
  updatedAt : Nat
deriving DecidableEq, Repr

/-- The ORM join `claim.offer`: the offer row the claim's `offerId` points at,
or `none` when `offerId` is null or dangling. -/
def resolveOffer (offers : List Item) (c : Claim) : Option Item :=
  c.offerId.bind (fun oid => offers.find? (fun o => o.id == oid))

/-- The ORM join `claim.desire`: the desire row the claim's `desireId` points
at, or `none` when `desireId` is null or dangling. -/
def resolveDesire (desires : List Item) (c : Claim) : Option Item :=
  c.desireId.bind (fun did => desires.find? (fun d => d.id == did))

/-! ## Room snapshot builder (`src/app/rooms/[code]/room-status-data.ts`) -/

/-- One element of `RoomSnapshot.members` as produced by `buildSnapshot`. -/
structure MemberRecord where
  membershipId : String
  userId : String
  displayName : Option String
  nickname : Option String
  role : MemberRole
  joinedAt : Nat
  isActive : Bool
  enjoyment : Option String
  readyForRound : Option RoomRound
deriving DecidableEq, Repr

/-- The membership-to-member-record mapping inside `buildSnapshot`.  The
membership comes paired with its included `user` row; `isActive` is looked up
in the live-presence set (`activeMemberships.has(membership.id)`). -/
def toMemberRecord (active : List String) (mu : Membership × User) : MemberRecord :=
  { membershipId := mu.1.id
    userId := mu.1.userId
    displayName := mu.2.displayName
    nickname := mu.1.nickname
    role := mu.1.role
    joinedAt := mu.1.createdAt
    isActive := active.contains mu.1.id
    enjoyment := mu.1.enjoyment
    readyForRound := mu.1.readyForRound }

/-- The boolean order induced by the `sortMembers` comparator
(`a.role === "HOST" ? -1 : b.role === "HOST" ? 1 : joinedAt diff`):
`memberLe a b` holds exactly when the comparator returns a value `≤ 0`. -/
def memberLe (a b : MemberRecord) : Bool :=
  if a.role == .HOST then true
  else if b.role == .HOST then false
  else decide (a.joinedAt ≤ b.joinedAt)

/-- `sortMembers` from `room-status-data.ts`: a stable sort of the member
records under the comparator above. -/
def sortMembers (members : List MemberRecord) : List MemberRecord :=
  members.mergeSort memberLe

/-- The member list produced by `buildSnapshot`: map each membership (with its
user) to a member record, then sort. -/
def buildMembers (memberships : List (Membership × User)) (active : List String) :
    List MemberRecord :=
  sortMembers (memberships.map (toMemberRecord active))

/-- The boolean order induced by the creation-time comparator
`a.createdAt.getTime() - b.createdAt.getTime()` used on offers, desires and
claims. -/
def createdLeItem (a b : Item) : Bool :=
  decide (a.createdAt ≤ b.createdAt)

/-- The same creation-time order on claims. -/
def createdLeClaim (a b : Claim) : Bool :=
  decide (a.createdAt ≤ b.createdAt)

/-- Offer summary as exposed in the snapshot.

Modelled from the spec: `toOfferSummary` lives in `src/lib/room-items.ts`,
which is not among the repository files provided; the spec's persisted-state
shape (section 6) lists the fields, and the summary is their projection. -/
structure OfferSummary where
  id : String
  authorMembershipId : String
  title : String
  details : Option String
  status : ItemStatus
  createdAt : Nat
  updatedAt : Nat
deriving DecidableEq, Repr

/-- Modelled from the spec: the `toOfferSummary` projection
(`src/lib/room-items.ts` is absent); it carries the item's fields, in
particular `createdAt`, over unchanged. -/
def toOfferSummary (o : Item) : OfferSummary :=
  { id := o.id, authorMembershipId := o.authorMembershipId, title := o.title
    details := o.details, status := o.status, createdAt := o.createdAt
    updatedAt := o.updatedAt }

/-- Desire summary; same shape as an offer summary.

Modelled from the spec: `toDesireSummary` lives in `src/lib/room-items.ts`,
absent from the provided files; it is the field projection. -/
def toDesireSummary (d : Item) : OfferSummary :=
  toOfferSummary d

/-- Claim summary as exposed in the snapshot.

Modelled from the spec: `toClaimSummary` lives in `src/lib/room-claims.ts`,
absent from the provided files; the spec's persisted-state shape lists the
claim fields and the summary is their projection. -/
structure ClaimSummary where
  id : String
  claimerMembershipId : String
  offerId : Option String
  desireId : Option String
  status : ClaimStatus
  note : Option String
  createdAt : Nat
  updatedAt : Nat
deriving DecidableEq, Repr

/-- Modelled from the spec: the `toClaimSummary` projection
(`src/lib/room-claims.ts` is absent); it carries the claim's fields, in
particular `createdAt`, over unchanged. -/
def toClaimSummary (c : Claim) : ClaimSummary :=
  { id := c.id, claimerMembershipId := c.claimerMembershipId
    offerId := c.offerId, desireId := c.desireId, status := c.status
    note := c.note, createdAt := c.createdAt, updatedAt := c.updatedAt }

/-- `mapOffers` from `room-status-data.ts`: stable sort by creation time
ascending, then map to summaries. -/
def mapOffers (offers : List Item) : List OfferSummary :=
  (offers.mergeSort createdLeItem).map toOfferSummary

/-- `mapDesires` from `room-status-data.ts`. -/
def mapDesires (desires : List Item) : List OfferSummary :=
  (desires.mergeSort createdLeItem).map toDesireSummary

/-- `mapClaims` from `room-status-data.ts`. -/
def mapClaims (claims : List Claim) : List ClaimSummary :=
  (claims.mergeSort createdLeClaim).map toClaimSummary

/-- One element of `RoomSnapshot.rounds` as produced by `buildSnapshot`. -/
structure RoundMeta where
  round : RoomRound
  title : String
  description : String
  guidance : String
  isActive : Bool
  isComplete : Bool
deriving DecidableEq, Repr

/-- The rounds metadata computed inside `buildSnapshot`
(`room-status-data.ts`, the `rounds` field): for each round of the fixed
sequence, `isActive` iff its index equals the current round's index and
`isComplete` iff its index is strictly smaller.  `Math.max(indexOf, 0)` is
embedded as `max` on `Nat` (the `-1` case cannot arise: every round occurs in
the sequence). -/
def buildRounds (currentRound : RoomRound) : List RoundMeta :=
  let currentRoundIndex := max (ROOM_ROUND_SEQUENCE.indexOf currentRound) 0
  ROOM_ROUND_SEQUENCE.enum.map (fun p =>
    let info := getRoundInfo p.2
    { round := p.2, title := info.title, description := info.description
      guidance := info.guidance
      isActive := p.1 == currentRoundIndex
      isComplete := decide (p.1 < currentRoundIndex) })

/-! ## Claim gating (`src/app/rooms/[code]/connections/page.tsx`) -/

/-- The result object of `canStartClaim`: an `allowed` flag and, when the bid
is rejected, the reason text shown to the user. -/
structure ClaimGate where
  allowed : Bool
  reason : Option String
deriving DecidableEq, Repr

/-- The `myClaimerClaims` memo from the connections page: the room claims
whose claimer is the current membership, sorted by `updatedAt` ascending
(empty when the viewer has not joined). -/
def myClaimerClaims (claims : List Claim) (membershipId : Option String) : List Claim :=
  match membershipId with
  | none => []
  | some m =>
    (claims.filter (fun c => c.claimerMembershipId == m)).mergeSort
      (fun a b => decide (a.updatedAt ≤ b.updatedAt))

/-- `canStartClaim` from the connections page, checked before a bid is sent:
joined viewer, not the author, target `OPEN`, and no pending bid by this
viewer on this exact target. -/
def canStartClaim (membershipId : Option String) (claims : List Claim)
    (entity : Item) (kind : ItemType) : ClaimGate :=
  match membershipId with
  | none => { allowed := false, reason := some "Join the room to place bids." }
  | some m =>
    if entity.authorMembershipId == m then
      { allowed := false, reason := some "You cannot request your own entry." }
    else if entity.status != .OPEN then
      { allowed := false, reason := some "This entry is closed to new bids." }
    else if (myClaimerClaims claims (some m)).any (fun c =>
        c.status == .PENDING &&
          ((kind == .offer && c.offerId == some entity.id)
            || (kind == .desire && c.desireId == some entity.id))) then
      { allowed := false, reason := some "You already have a pending bid here." }
    else
      { allowed := true, reason := none }

/-! ## Commitment derivation (`src/server/export-summary.ts`)

`collectMemberCommitments` (one member's view) and the claim-processing loop
of `collectAllCommitments` (the room-wide report data).  The display-name
formatting (`formatMemberDisplayName`) is a presentation detail; the
embedding keeps the counterpart's membership id, which the names are derived
from. -/

/-- The `role` discriminator of a commitment entry. -/
inductive EntryRole where
  | giving
  | receiving
deriving DecidableEq, Repr

/-- One entry pushed by `pushGivingEntry` / `pushReceivingEntry`. -/
structure CommitmentEntry where
  claimId : String
  itemType : ItemType
  itemTitle : String
  itemDetails : Option String
  role : EntryRole
  counterpartMembershipId : String
  note : Option String
  updatedAt : Nat
deriving DecidableEq, Repr

/-- The `MemberCommitments` accumulator: the two arrays the loop pushes
into. -/
structure MemberCommitments where
  giving : List CommitmentEntry
  receiving : List CommitmentEntry
deriving DecidableEq, Repr

/-- `pushGivingEntry` from `export-summary.ts`, as the entry it appends. -/
def givingEntry (c : Claim) (itemType : ItemType) (itemTitle : String)
    (itemDetails : Option String) (counterpart : String) : CommitmentEntry :=
  { claimId := c.id, itemType := itemType, itemTitle := itemTitle
    itemDetails := itemDetails, role := .giving
    counterpartMembershipId := counterpart, note := c.note
    updatedAt := c.updatedAt }

/-- `pushReceivingEntry` from `export-summary.ts`, as the entry it appends. -/
def receivingEntry (c : Claim) (itemType : ItemType) (itemTitle : String)
    (itemDetails : Option String) (counterpart : String) : CommitmentEntry :=
  { claimId := c.id, itemType := itemType, itemTitle := itemTitle
    itemDetails := itemDetails, role := .receiving
    counterpartMembershipId := counterpart, note := c.note
    updatedAt := c.updatedAt }

/-- The giving entries one claim contributes to member `m`'s view, in push
order: the offer branch pushes giving for the offer's author, the desire
branch pushes giving for the claimer. -/
def givingEntriesOf (offers desires : List Item) (m : String) (c : Claim) :
    List CommitmentEntry :=
  (match resolveOffer offers c with
   | some o =>
     if o.authorMembershipId == m then
       [givingEntry c .offer o.title o.details c.claimerMembershipId]
     else []
   | none => [])
  ++
  (match resolveDesire desires c with
   | some d =>
     if c.claimerMembershipId == m then
       [givingEntry c .desire d.title d.details d.authorMembershipId]
     else []
   | none => [])

/-- The receiving entries one claim contributes to member `m`'s view, in push
order: the offer branch pushes receiving for the claimer, the desire branch
pushes receiving for the desire's author. -/
def receivingEntriesOf (offers desires : List Item) (m : String) (c : Claim) :
    List CommitmentEntry :=
  (match resolveOffer offers c with
   | some o =>
     if c.claimerMembershipId == m then
       [receivingEntry c .offer o.title o.details o.authorMembershipId]
     else []
   | none => [])
  ++
  (match resolveDesire desires c with
   | some d =>
     if d.authorMembershipId == m then
       [receivingEntry c .desire d.title d.details c.claimerMembershipId]
     else []
   | none => [])

/-- The `where` filter of the `collectMemberCommitments` query: status
`ACCEPTED` and the member is the claimer, the related offer's author, or the
related desire's author. -/
def memberClaimFilter (offers desires : List Item) (m : String) (c : Claim) : Bool :=
  c.status == .ACCEPTED &&
    (c.claimerMembershipId == m
      || (match resolveOffer offers c with
          | some o => o.authorMembershipId == m
          | none => false)
      || (match resolveDesire desires c with
          | some d => d.authorMembershipId == m
          | none => false))

/-- One iteration of the `collectMemberCommitments` loop: append the giving
and receiving entries the claim contributes. -/
def commitStep (offers desires : List Item) (m : String)
    (acc : MemberCommitments) (c : Claim) : MemberCommitments :=
  { giving := acc.giving ++ givingEntriesOf offers desires m c
    receiving := acc.receiving ++ receivingEntriesOf offers desires m c }

/-- `collectMemberCommitments` from `export-summary.ts`: run the query
(filter, then `orderBy updatedAt asc`) and fold the loop from the empty
accumulator. -/
def collectMemberCommitments (offers desires : List Item) (claims : List Claim)
    (m : String) : MemberCommitments :=
  let selected :=
    (claims.filter (memberClaimFilter offers desires m)).mergeSort
      (fun a b => decide (a.updatedAt ≤ b.updatedAt))
  selected.foldl (commitStep offers desires m) { giving := [], receiving := [] }

/-- One row of the room-wide `commitments` array built by
`collectAllCommitments` (`giverName`/`receiverName` are display strings
computed from the two membership ids and are omitted). -/
structure CommitmentInfo where
  itemTitle : String
  itemDetails : Option String
  itemType : ItemType
  giverMembershipId : String
  receiverMembershipId : String
  note : Option String
deriving DecidableEq, Repr

/-- `counts.set(k, (counts.get(k) || 0) + 1)` on a JavaScript `Map`
(insertion-ordered), embedded as an association list. -/
def bumpCount (counts : List (String × Nat)) (k : String) : List (String × Nat) :=
  if counts.any (fun p => p.1 == k) then
    counts.map (fun p => if p.1 == k then (p.1, p.2 + 1) else p)
  else
    counts ++ [(k, 1)]

/-- `counts.get(k) || 0`. -/
def getCount (counts : List (String × Nat)) (k : String) : Nat :=
  match counts.find? (fun p => p.1 == k) with
  | some p => p.2
  | none => 0

/-- The state the `collectAllCommitments` loop runs over: the room data read
from the store (never written) and the accumulators the loop pushes into. -/
structure DeriveState where
  offers : List Item
  desires : List Item
  claims : List Claim
  memberships : List Membership
  commitments : List CommitmentInfo
  givingCounts : List (String × Nat)
  receivingCounts : List (String × Nat)
deriving DecidableEq, Repr

/-- One iteration of the `collectAllCommitments` loop: the offer branch
records the offer's author as giver and the claimer as receiver, the desire
branch records the claimer as giver and the desire's author as receiver;
both branches run when both joins resolve. -/
def deriveStep (s : DeriveState) (c : Claim) : DeriveState :=
  let s1 :=
    match resolveOffer s.offers c with
    | some o =>
      { s with
        givingCounts := bumpCount s.givingCounts o.authorMembershipId
        receivingCounts := bumpCount s.receivingCounts c.claimerMembershipId
        commitments := s.commitments ++
          [{ itemTitle := o.title, itemDetails := o.details, itemType := .offer
             giverMembershipId := o.authorMembershipId
             receiverMembershipId := c.claimerMembershipId, note := c.note }] }
    | none => s
  match resolveDesire s1.desires c with
  | some d =>
    { s1 with
      givingCounts := bumpCount s1.givingCounts c.claimerMembershipId
      receivingCounts := bumpCount s1.receivingCounts d.authorMembershipId
      commitments := s1.commitments ++
        [{ itemTitle := d.title, itemDetails := d.details, itemType := .desire
           giverMembershipId := c.claimerMembershipId
           receiverMembershipId := d.authorMembershipId, note := c.note }] }
  | none => s1

/-- The claim-processing loop of `collectAllCommitments`: the query restricts
the room's claims to status `ACCEPTED`, then the loop folds over them. -/
def deriveRun (s : DeriveState) : DeriveState :=
  (s.claims.filter (fun c => c.status == .ACCEPTED)).foldl deriveStep s

/-- One row of the `participants` array of `collectAllCommitments`: each
membership with its giving/receiving counts looked up in the two maps. -/
structure ParticipantInfo where
  membershipId : String
  role : MemberRole
  enjoyment : Option String
  givingCount : Nat
  receivingCount : Nat
deriving DecidableEq, Repr

/-- The participants mapping of `collectAllCommitments` applied to the state
after the loop. -/
def participantsOf (s : DeriveState) : List ParticipantInfo :=
  s.memberships.map (fun m =>
    { membershipId := m.id, role := m.role, enjoyment := m.enjoyment
      givingCount := getCount s.givingCounts m.id
      receivingCount := getCount s.receivingCounts m.id })

/-! ## Enjoyment endpoint (`src/app/api/rooms/[code]/enjoyment/route.ts`) -/

/-- The room columns the enjoyment handler selects. -/
structure RoomLite where
  id : String
  currentRound : RoomRound
deriving DecidableEq, Repr

/-- The outcome of the enjoyment POST handler.  The error constructors map to
the HTTP statuses 400 (invalid code, invalid body, empty, over-length),
404 (room), 409 (round) and 403 (membership); `stored` is the 200 path and
records the membership updated and the text written to it. -/
inductive EnjoymentResult where
  | invalidCode
  | roomNotFound
  | wrongRound
  | notMember
  | invalidBody
  | emptyEnjoyment
  | overlongEnjoyment
  | stored (membershipId : String) (enjoyment : String)
deriving DecidableEq, Repr

/-- The decision logic of the enjoyment POST handler, in the handler's check
order.  `codeValid` is the `isValidRoomCode` outcome, `room` and `membership`
the two store lookups, and `body` the parse result (`none` = unparsable JSON,
`some none` = no `enjoyment` field).  The JavaScript truthiness test
`if (!enjoyment)` rejects both a missing field and text that trims to the
empty string. -/
def enjoymentPost (codeValid : Bool) (room : Option RoomLite)
    (membership : Option Membership) (body : Option (Option String)) :
    EnjoymentResult :=
  if !codeValid then .invalidCode
  else
    match room with
    | none => .roomNotFound
    | some r =>
      if r.currentRound != .DECISIONS && r.currentRound != .SUMMARY then
        .wrongRound
      else
        match membership with
        | none => .notMember
        | some mem =>
          match body with
          | none => .invalidBody
          | some enjField =>
            match enjField.map (fun s => s.trim) with
            | none => .emptyEnjoyment
            | some e =>
              if e == "" then .emptyEnjoyment
              else if 2000 < e.length then .overlongEnjoyment
              else .stored mem.id e

/-! ## Theorems -/

/-- C5: over the fixed six-round enumeration WAITING, OFFERS, DESIRES,
CONNECTIONS, DECISIONS, SUMMARY, `getNextRound` returns the immediately
following round of the sequence, returns `none` exactly on SUMMARY (the last
round), and `canAdvanceRound current` is true if and only if
`getNextRound current` is non-null. -/
theorem nextRound_follows_sequence_and_gates_advance :
    getNextRound .WAITING = some .OFFERS ∧
    getNextRound .OFFERS = some .DESIRES ∧
    getNextRound .DESIRES = some .CONNECTIONS ∧
    getNextRound .CONNECTIONS = some .DECISIONS ∧
    getNextRound .DECISIONS = some .SUMMARY ∧
    (∀ r : RoomRound, getNextRound r = none ↔ r = .SUMMARY) ∧
    (∀ r : RoomRound, canAdvanceRound r = true ↔ getNextRound r ≠ none) := by
  refine ⟨by decide, by decide, by decide, by decide, by decide,
    fun r => by cases r <;> decide, fun r => by cases r <;> decide⟩

/-- C6: for every current round, the snapshot's rounds array lists the fixed
sequence in order with `isActive` true exactly on the entry whose round
equals the current round and `isComplete` true exactly on entries strictly
before the current round's index; in particular at SUMMARY all five prior
rounds are complete and only SUMMARY is active. -/
theorem snapshot_rounds_flag_active_and_complete :
    (∀ r : RoomRound,
      (buildRounds r).map (fun e => (e.round, e.isActive, e.isComplete)) =
        ROOM_ROUND_SEQUENCE.enum.map (fun p =>
          (p.2, decide (p.2 = r),
            decide (p.1 < ROOM_ROUND_SEQUENCE.indexOf r)))) ∧
    (buildRounds .SUMMARY).map (fun e => (e.isActive, e.isComplete)) =
      [(false, true), (false, true), (false, true), (false, true),
        (false, true), (true, false)] :=
  ⟨fun r => by cases r <;> decide, by decide⟩

/-- Sortedness of the creation-time merge sort on items. -/
theorem pairwise_mergeSort_createdLeItem (l : List Item) :
    (l.mergeSort createdLeItem).Pairwise (fun a b => a.createdAt ≤ b.createdAt) := by
  have h := @List.sorted_mergeSort Item createdLeItem
    (fun a b c hab hbc => by
      simp only [createdLeItem, decide_eq_true_eq] at *; omega)
    (fun a b => by
      simp only [createdLeItem, Bool.or_eq_true, decide_eq_true_eq]; omega)
    l
  exact h.imp (fun hab => by
    simpa only [createdLeItem, decide_eq_true_eq] using hab)

/-- Sortedness of the creation-time merge sort on claims. -/
theorem pairwise_mergeSort_createdLeClaim (l : List Claim) :
    (l.mergeSort createdLeClaim).Pairwise (fun a b => a.createdAt ≤ b.createdAt) := by
  have h := @List.sorted_mergeSort Claim createdLeClaim
    (fun a b c hab hbc => by
      simp only [createdLeClaim, decide_eq_true_eq] at *; omega)
    (fun a b => by
      simp only [createdLeClaim, Bool.or_eq_true, decide_eq_true_eq]; omega)
    l
  exact h.imp (fun hab => by
    simpa only [createdLeClaim, decide_eq_true_eq] using hab)

/-- C7: for every input lists of offers, desires and claims, the snapshot's
offers, desires and claims are each sorted by creation time ascending and are
a permutation of the mapped input (no element is added or dropped), whatever
the order of the input lists. -/
theorem snapshot_items_sorted_by_creation_time :
    ∀ (offers desires : List Item) (claims : List Claim),
      ((mapOffers offers).Pairwise (fun a b => a.createdAt ≤ b.createdAt) ∧
        (mapOffers offers).Perm (offers.map toOfferSummary)) ∧
      ((mapDesires desires).Pairwise (fun a b => a.createdAt ≤ b.createdAt) ∧
        (mapDesires desires).Perm (desires.map toDesireSummary)) ∧
      ((mapClaims claims).Pairwise (fun a b => a.createdAt ≤ b.createdAt) ∧
        (mapClaims claims).Perm (claims.map toClaimSummary)) := by
  intro offers desires claims
  refine ⟨⟨?_, ?_⟩, ⟨?_, ?_⟩, ⟨?_, ?_⟩⟩
  · exact List.pairwise_map.mpr
      ((pairwise_mergeSort_createdLeItem offers).imp (fun h => h))
  · exact (List.mergeSort_perm offers createdLeItem).map toOfferSummary
  · exact List.pairwise_map.mpr
      ((pairwise_mergeSort_createdLeItem desires).imp (fun h => h))
  · exact (List.mergeSort_perm desires createdLeItem).map toDesireSummary
  · exact List.pairwise_map.mpr
      ((pairwise_mergeSort_createdLeClaim claims).imp (fun h => h))
  · exact (List.mergeSort_perm claims createdLeClaim).map toClaimSummary

/-- The member comparator order, characterised: `a` sorts no later than `b`
iff `a` is the host, or `b` is not the host and `a` joined no later. -/
theorem memberLe_iff (a b : MemberRecord) :
    memberLe a b = true ↔
      (a.role = .HOST ∨ (b.role ≠ .HOST ∧ a.joinedAt ≤ b.joinedAt)) := by
  cases ha : a.role <;> cases hb : b.role <;>
    simp [memberLe, ha, hb]

/-- The member comparator is transitive. -/
theorem memberLe_trans (a b c : MemberRecord) (hab : memberLe a b = true)
    (hbc : memberLe b c = true) : memberLe a c = true := by
  rw [memberLe_iff] at *
  rcases hab with h | ⟨hb, hab⟩
  · exact Or.inl h
  · rcases hbc with h | ⟨hc, hbc⟩
    · exact absurd h hb
    · exact Or.inr ⟨hc, le_trans hab hbc⟩

/-- The member comparator is total. -/
theorem memberLe_total (a b : MemberRecord) :
    (memberLe a b || memberLe b a) = true := by
  rw [Bool.or_eq_true, memberLe_iff, memberLe_iff]
  by_cases ha : a.role = .HOST
  · exact Or.inl (Or.inl ha)
  · by_cases hb : b.role = .HOST
    · exact Or.inr (Or.inl hb)
    · rcases le_total a.joinedAt b.joinedAt with h | h
      · exact Or.inl (Or.inr ⟨hb, h⟩)
      · exact Or.inr (Or.inr ⟨ha, h⟩)

/-- C8: for every membership list with at most one HOST and every
live-presence set, the snapshot's member list is exactly the input
memberships (presence never removes a member), ordered host-first with the
remaining members by join time ascending, and each record's `isActive` flag
holds iff its membership id is in the presence set. -/
theorem snapshot_members_roster_order_presence :
    ∀ (memberships : List (Membership × User)) (active : List String),
      memberships.countP (fun mu => mu.1.role == .HOST) ≤ 1 →
      (buildMembers memberships active).Perm
        (memberships.map (toMemberRecord active)) ∧
      List.Pairwise
        (fun a b => (b.role = .HOST → a.role = .HOST) ∧
          (a.role ≠ .HOST → (b.role ≠ .HOST ∧ a.joinedAt ≤ b.joinedAt)))
        (buildMembers memberships active) ∧
      (∀ rec1 ∈ buildMembers memberships active,
        rec1.isActive = active.contains rec1.membershipId) := by
  intro memberships active _hostAtMostOne
  refine ⟨?_, ?_, ?_⟩
  · exact List.mergeSort_perm (memberships.map (toMemberRecord active)) memberLe
  · have h := @List.sorted_mergeSort MemberRecord memberLe
      memberLe_trans memberLe_total (memberships.map (toMemberRecord active))
    refine h.imp (fun hab => ?_)
    rw [memberLe_iff] at hab
    rcases hab with h1 | ⟨h1, h2⟩
    · exact ⟨fun _ => h1, fun hna => absurd h1 hna⟩
    · exact ⟨fun hbh => absurd hbh h1, fun _ => ⟨h1, h2⟩⟩
  · intro rec1 hrec
    have hmem : rec1 ∈ memberships.map (toMemberRecord active) :=
      List.mem_mergeSort.mp hrec
    obtain ⟨mu, _hmu, rfl⟩ := List.mem_map.mp hmem
    rfl

/-- Sample data for the C8 witness: one host and one participant. -/
def sampleHostPair : Membership × User :=
  ({ id := "m-host", roomId := "room-1", userId := "u-host", role := .HOST
     nickname := none, enjoyment := none, readyForRound := none
     createdAt := 5 },
   { id := "u-host", displayName := some "Ann" })

/-- Sample data for the C8 witness. -/
def sampleGuestPair : Membership × User :=
  ({ id := "m-guest", roomId := "room-1", userId := "u-guest"
     role := .PARTICIPANT, nickname := none, enjoyment := none
     readyForRound := none, createdAt := 3 },
   { id := "u-guest", displayName := none })

/-- Witness for C8: the hypothesis (at most one host) holds on a concrete
two-member roster and the theorem applies to it. -/
theorem snapshot_members_roster_order_presence_witness :
    ([sampleHostPair, sampleGuestPair].countP (fun mu => mu.1.role == .HOST) ≤ 1) ∧
    (buildMembers [sampleHostPair, sampleGuestPair] ["m-guest"]).Perm
      ([sampleHostPair, sampleGuestPair].map (toMemberRecord ["m-guest"])) ∧
    (∀ rec1 ∈ buildMembers [sampleHostPair, sampleGuestPair] ["m-guest"],
      rec1.isActive = ["m-guest"].contains rec1.membershipId) :=
  ⟨by decide,
   (snapshot_members_roster_order_presence [sampleHostPair, sampleGuestPair]
      ["m-guest"] (by decide)).1,
   (snapshot_members_roster_order_presence [sampleHostPair, sampleGuestPair]
      ["m-guest"] (by decide)).2.2⟩

/-- Searching the viewer's sorted claim list is searching the room claims
restricted to that claimer: sorting and filtering do not change `any`. -/
theorem any_myClaimerClaims (claims : List Claim) (m : String) (p : Claim → Bool) :
    (myClaimerClaims claims (some m)).any p = true ↔
      ∃ c ∈ claims, c.claimerMembershipId = m ∧ p c = true := by
  unfold myClaimerClaims
  simp only [List.any_eq_true, List.mem_mergeSort, List.mem_filter,
    beq_iff_eq, and_assoc]

/-- C4: claim creation is allowed for a joined member exactly when the target
is OPEN, the member is not the target's author, and the member has no PENDING
claim on this exact target; the gate rejects exactly when one of the three
preconditions fails. -/
theorem claim_creation_gate_iff :
    ∀ (m : String) (claims : List Claim) (entity : Item) (kind : ItemType),
      (canStartClaim (some m) claims entity kind).allowed = true ↔
        (entity.status = .OPEN ∧ entity.authorMembershipId ≠ m ∧
          ¬ ∃ c ∈ claims, c.claimerMembershipId = m ∧ c.status = .PENDING ∧
            ((kind = .offer ∧ c.offerId = some entity.id) ∨
              (kind = .desire ∧ c.desireId = some entity.id))) := by
  intro m claims entity kind
  have hany : ∀ p : Claim → Bool,
      ((myClaimerClaims claims (some m)).any p = true ↔
        ∃ c ∈ claims, c.claimerMembershipId = m ∧ p c = true) :=
    fun p => any_myClaimerClaims claims m p
  simp only [canStartClaim]
  split
  next h1 =>
    have h1p : entity.authorMembershipId = m := by simpa using h1
    simp [h1p]
  next h1 =>
    have h1p : entity.authorMembershipId ≠ m := by simpa using h1
    split
    next h2 =>
      have h2p : entity.status ≠ .OPEN := by simpa using h2
      simp [h2p]
    next h2 =>
      have h2p : entity.status = .OPEN := by simpa using h2
      split
      next h3 =>
        rw [hany] at h3
        obtain ⟨c, hc, hcm, hp⟩ := h3
        simp only [Bool.and_eq_true, Bool.or_eq_true, beq_iff_eq] at hp
        simp only [Bool.false_eq_true, false_iff, not_and, not_not]
        intro _ _
        exact ⟨c, hc, hcm, hp.1, hp.2⟩
      next h3 =>
        have h3b := h3
        rw [hany] at h3b
        simp only [true_iff]
        refine ⟨h2p, h1p, ?_⟩
        rintro ⟨c, hc, hcm, hpend, htarget⟩
        exact h3b ⟨c, hc, hcm, by
          simp only [Bool.and_eq_true, Bool.or_eq_true, beq_iff_eq]
          exact ⟨hpend, htarget⟩⟩

/-- C9: the enjoyment endpoint is hard-gated server-side.  For every request
it returns the round-conflict rejection exactly when the room exists but its
current round is neither DECISIONS nor SUMMARY; it rejects missing rooms and
non-members; it rejects an unparsable body, text that trims to empty, and
trimmed text longer than 2000 characters; and it stores text exactly when all
gates pass, writing the trimmed text to the caller's membership. -/
theorem enjoyment_route_gating :
    ∀ (codeValid : Bool) (room : Option RoomLite)
      (membership : Option Membership) (body : Option (Option String)),
      (enjoymentPost codeValid room membership body = .wrongRound ↔
        codeValid = true ∧ ∃ r, room = some r ∧
          r.currentRound ≠ .DECISIONS ∧ r.currentRound ≠ .SUMMARY) ∧
      (enjoymentPost codeValid room membership body = .roomNotFound ↔
        codeValid = true ∧ room = none) ∧
      (enjoymentPost codeValid room membership body = .notMember ↔
        codeValid = true ∧
        (∃ r, room = some r ∧
          (r.currentRound = .DECISIONS ∨ r.currentRound = .SUMMARY)) ∧
        membership = none) ∧
      (enjoymentPost codeValid room membership body = .emptyEnjoyment ↔
        codeValid = true ∧
        (∃ r, room = some r ∧
          (r.currentRound = .DECISIONS ∨ r.currentRound = .SUMMARY)) ∧
        membership.isSome = true ∧
        (body = some none ∨ ∃ raw, body = some (some raw) ∧ raw.trim = "")) ∧
      (enjoymentPost codeValid room membership body = .overlongEnjoyment ↔
        codeValid = true ∧
        (∃ r, room = some r ∧
          (r.currentRound = .DECISIONS ∨ r.currentRound = .SUMMARY)) ∧
        membership.isSome = true ∧
        (∃ raw, body = some (some raw) ∧ raw.trim ≠ "" ∧
          2000 < raw.trim.length)) ∧
      (∀ mid e, enjoymentPost codeValid room membership body = .stored mid e ↔
        codeValid = true ∧
        (∃ r, room = some r ∧
          (r.currentRound = .DECISIONS ∨ r.currentRound = .SUMMARY)) ∧
        (∃ mem, membership = some mem ∧ mid = mem.id) ∧
        (∃ raw, body = some (some raw) ∧ e = raw.trim ∧ raw.trim ≠ "" ∧
          raw.trim.length ≤ 2000)) := by
  intro cv room mem body
  cases cv with
  | false => simp [enjoymentPost]
  | true =>
    cases room with
    | none => simp [enjoymentPost]
    | some r =>
      by_cases hr : r.currentRound = .DECISIONS ∨ r.currentRound = .SUMMARY
      · have hb : (r.currentRound != RoomRound.DECISIONS &&
            r.currentRound != RoomRound.SUMMARY) = false := by
          rcases hr with h | h <;> simp [h]
        have hrneg : ¬ (r.currentRound ≠ .DECISIONS ∧ r.currentRound ≠ .SUMMARY) := by
          rcases hr with h | h <;> simp [h]
        cases mem with
        | none => simp [enjoymentPost, hb, hr, hrneg]
        | some mm =>
          cases body with
          | none => simp [enjoymentPost, hb, hr, hrneg]
          | some enjField =>
            cases enjField with
            | none => simp [enjoymentPost, hb, hr, hrneg]
            | some raw =>
              by_cases he : raw.trim = ""
              · simp [enjoymentPost, hb, hr, hrneg, he]
              · by_cases hlen : 2000 < raw.trim.length
                · simp [enjoymentPost, hb, hr, hrneg, he, hlen]
                · have hlen2 : raw.trim.length ≤ 2000 := le_of_not_lt hlen
                  simp [enjoymentPost, hb, hr, hrneg, he, hlen, hlen2]
                  intro mid e
                  constructor
                  · rintro ⟨h1, h2⟩
                    exact ⟨h1.symm, h2.symm⟩
                  · rintro ⟨h1, h2⟩
                    exact ⟨h1.symm, h2.symm⟩
      · push_neg at hr
        have hb : (r.currentRound != RoomRound.DECISIONS &&
            r.currentRound != RoomRound.SUMMARY) = true := by
          simp [Bool.and_eq_true, bne_iff_ne, hr.1, hr.2]
        simp [enjoymentPost, hb, hr.1, hr.2]

/-- The commitment loop appends each claim's contributions in processing
order: folding from any accumulator yields the accumulator followed by the
per-claim entry blocks. -/
theorem foldl_commitStep (offers desires : List Item) (m : String) :
    ∀ (l : List Claim) (g r : List CommitmentEntry),
      l.foldl (commitStep offers desires m) { giving := g, receiving := r } =
        { giving := g ++ l.flatMap (givingEntriesOf offers desires m)
          receiving := r ++ l.flatMap (receivingEntriesOf offers desires m) } := by
  intro l
  induction l with
  | nil => intro g r; simp
  | cons c t ih =>
    intro g r
    rw [List.foldl_cons,
      show commitStep offers desires m { giving := g, receiving := r } c =
        { giving := g ++ givingEntriesOf offers desires m c
          receiving := r ++ receivingEntriesOf offers desires m c } from rfl,
      ih]
    simp [List.append_assoc]

/-- An entry is in a member's giving list iff some claim of the room passes
the member query filter and contributes it. -/
theorem mem_collectMember_giving (offers desires : List Item)
    (claims : List Claim) (m : String) (e : CommitmentEntry) :
    e ∈ (collectMemberCommitments offers desires claims m).giving ↔
      ∃ c ∈ claims, memberClaimFilter offers desires m c = true ∧
        e ∈ givingEntriesOf offers desires m c := by
  simp only [collectMemberCommitments]
  rw [foldl_commitStep]
  simp only [List.nil_append, List.mem_flatMap, List.mem_mergeSort,
    List.mem_filter]
  constructor
  · rintro ⟨c, ⟨hc, hf⟩, he⟩
    exact ⟨c, hc, hf, he⟩
  · rintro ⟨c, hc, hf, he⟩
    exact ⟨c, ⟨hc, hf⟩, he⟩

/-- An entry is in a member's receiving list iff some claim of the room
passes the member query filter and contributes it. -/
theorem mem_collectMember_receiving (offers desires : List Item)
    (claims : List Claim) (m : String) (e : CommitmentEntry) :
    e ∈ (collectMemberCommitments offers desires claims m).receiving ↔
      ∃ c ∈ claims, memberClaimFilter offers desires m c = true ∧
        e ∈ receivingEntriesOf offers desires m c := by
  simp only [collectMemberCommitments]
  rw [foldl_commitStep]
  simp only [List.nil_append, List.mem_flatMap, List.mem_mergeSort,
    List.mem_filter]
  constructor
  · rintro ⟨c, ⟨hc, hf⟩, he⟩
    exact ⟨c, hc, hf, he⟩
  · rintro ⟨c, hc, hf, he⟩
    exact ⟨c, ⟨hc, hf⟩, he⟩

/-- Every giving entry a claim contributes carries that claim's id. -/
theorem claimId_of_mem_givingEntriesOf (offers desires : List Item)
    (m : String) (c : Claim) (e : CommitmentEntry)
    (h : e ∈ givingEntriesOf offers desires m c) : e.claimId = c.id := by
  unfold givingEntriesOf at h
  rcases List.mem_append.mp h with h | h
  · cases hro : resolveOffer offers c with
    | none => simp [hro] at h
    | some o =>
      simp only [hro] at h
      by_cases hm : (o.authorMembershipId == m) = true
      · rw [if_pos hm, List.mem_singleton] at h
        subst h; rfl
      · rw [if_neg hm] at h
        exact absurd h (List.not_mem_nil e)
  · cases hrd : resolveDesire desires c with
    | none => simp [hrd] at h
    | some d =>
      simp only [hrd] at h
      by_cases hm : (c.claimerMembershipId == m) = true
      · rw [if_pos hm, List.mem_singleton] at h
        subst h; rfl
      · rw [if_neg hm] at h
        exact absurd h (List.not_mem_nil e)

/-- Every receiving entry a claim contributes carries that claim's id. -/
theorem claimId_of_mem_receivingEntriesOf (offers desires : List Item)
    (m : String) (c : Claim) (e : CommitmentEntry)
    (h : e ∈ receivingEntriesOf offers desires m c) : e.claimId = c.id := by
  unfold receivingEntriesOf at h
  rcases List.mem_append.mp h with h | h
  · cases hro : resolveOffer offers c with
    | none => simp [hro] at h
    | some o =>
      simp only [hro] at h
      by_cases hm : (c.claimerMembershipId == m) = true
      · rw [if_pos hm, List.mem_singleton] at h
        subst h; rfl
      · rw [if_neg hm] at h
        exact absurd h (List.not_mem_nil e)
  · cases hrd : resolveDesire desires c with
    | none => simp [hrd] at h
    | some d =>
      simp only [hrd] at h
      by_cases hm : (d.authorMembershipId == m) = true
      · rw [if_pos hm, List.mem_singleton] at h
        subst h; rfl
      · rw [if_neg hm] at h
        exact absurd h (List.not_mem_nil e)

/-- C1: for every set of offers, desires and claims, each ACCEPTED claim that
resolves to an offer yields a giving entry in the offer author's view with
the claimer as counterpart and a receiving entry in the claimer's view with
the author as counterpart; each ACCEPTED claim that resolves to a desire
yields a giving entry in the claimer's view with the desire's author as
counterpart and a receiving entry in the desire author's view with the
claimer as counterpart; and every emitted entry stems from an ACCEPTED claim
of the input, so claims with any other status contribute no entries. -/
theorem commitments_from_accepted_claims :
    ∀ (offers desires : List Item) (claims : List Claim),
      (∀ c ∈ claims, c.status = .ACCEPTED →
        (∀ o, resolveOffer offers c = some o →
          (∃ e ∈ (collectMemberCommitments offers desires claims
              o.authorMembershipId).giving,
            e.claimId = c.id ∧ e.role = .giving ∧
              e.counterpartMembershipId = c.claimerMembershipId) ∧
          (∃ e ∈ (collectMemberCommitments offers desires claims
              c.claimerMembershipId).receiving,
            e.claimId = c.id ∧ e.role = .receiving ∧
              e.counterpartMembershipId = o.authorMembershipId)) ∧
        (∀ d, resolveDesire desires c = some d →
          (∃ e ∈ (collectMemberCommitments offers desires claims
              c.claimerMembershipId).giving,
            e.claimId = c.id ∧ e.role = .giving ∧
              e.counterpartMembershipId = d.authorMembershipId) ∧
          (∃ e ∈ (collectMemberCommitments offers desires claims
              d.authorMembershipId).receiving,
            e.claimId = c.id ∧ e.role = .receiving ∧
              e.counterpartMembershipId = c.claimerMembershipId))) ∧
      (∀ (m : String) (e : CommitmentEntry),
        (e ∈ (collectMemberCommitments offers desires claims m).giving ∨
          e ∈ (collectMemberCommitments offers desires claims m).receiving) →
        ∃ c ∈ claims, c.status = .ACCEPTED ∧ e.claimId = c.id) := by
  intro offers desires claims
  constructor
  · intro c hc hacc
    constructor
    · intro o hro
      constructor
      · refine ⟨givingEntry c .offer o.title o.details c.claimerMembershipId,
          (mem_collectMember_giving offers desires claims
            o.authorMembershipId _).mpr ⟨c, hc, ?_, ?_⟩, rfl, rfl, rfl⟩
        · unfold memberClaimFilter
          simp [hacc, hro]
        · unfold givingEntriesOf
          simp [hro]
      · refine ⟨receivingEntry c .offer o.title o.details o.authorMembershipId,
          (mem_collectMember_receiving offers desires claims
            c.claimerMembershipId _).mpr ⟨c, hc, ?_, ?_⟩, rfl, rfl, rfl⟩
        · unfold memberClaimFilter
          simp [hacc]
        · unfold receivingEntriesOf
          simp [hro]
    · intro d hrd
      constructor
      · refine ⟨givingEntry c .desire d.title d.details d.authorMembershipId,
          (mem_collectMember_giving offers desires claims
            c.claimerMembershipId _).mpr ⟨c, hc, ?_, ?_⟩, rfl, rfl, rfl⟩
        · unfold memberClaimFilter
          simp [hacc]
        · unfold givingEntriesOf
          simp [hrd, List.mem_append]
      · refine ⟨receivingEntry c .desire d.title d.details c.claimerMembershipId,
          (mem_collectMember_receiving offers desires claims
            d.authorMembershipId _).mpr ⟨c, hc, ?_, ?_⟩, rfl, rfl, rfl⟩
        · unfold memberClaimFilter
          simp [hacc, hrd]
        · unfold receivingEntriesOf
          simp [hrd, List.mem_append]
  · intro m e he
    rcases he with he | he
    · rw [mem_collectMember_giving] at he
      obtain ⟨c, hc, hf, hmem⟩ := he
      refine ⟨c, hc, ?_, claimId_of_mem_givingEntriesOf offers desires m c e hmem⟩
      unfold memberClaimFilter at hf
      rw [Bool.and_eq_true] at hf
      exact beq_iff_eq.mp hf.1
    · rw [mem_collectMember_receiving] at he
      obtain ⟨c, hc, hf, hmem⟩ := he
      refine ⟨c, hc, ?_, claimId_of_mem_receivingEntriesOf offers desires m c e hmem⟩
      unfold memberClaimFilter at hf
      rw [Bool.and_eq_true] at hf
      exact beq_iff_eq.mp hf.1

/-- Sample offer for the C1 witness: authored by member A. -/
def sampleOffer : Item :=
  { id := "offer-1", roomId := "room-1", authorMembershipId := "A"
    title := "Fresh bread", details := none, status := .OPEN
    createdAt := 1, updatedAt := 2 }

/-- Sample accepted claim for the C1 witness: member B claims offer-1. -/
def sampleAcceptedClaim : Claim :=
  { id := "claim-1", roomId := "room-1", claimerMembershipId := "B"
    offerId := some "offer-1", desireId := none, status := .ACCEPTED
    note := none, createdAt := 3, updatedAt := 4 }

/-- Witness for C1: on a concrete room with one accepted offer claim the
hypotheses hold and the theorem yields the giving entry in A's view with B
as counterpart. -/
theorem commitments_from_accepted_claims_witness :
    (sampleAcceptedClaim ∈ [sampleAcceptedClaim]) ∧
    sampleAcceptedClaim.status = .ACCEPTED ∧
    resolveOffer [sampleOffer] sampleAcceptedClaim = some sampleOffer ∧
    (∃ e ∈ (collectMemberCommitments [sampleOffer] [] [sampleAcceptedClaim]
        sampleOffer.authorMembershipId).giving,
      e.claimId = sampleAcceptedClaim.id ∧ e.role = .giving ∧
        e.counterpartMembershipId = sampleAcceptedClaim.claimerMembershipId) :=
  ⟨List.mem_singleton.mpr rfl, rfl, by decide,
   (((commitments_from_accepted_claims [sampleOffer] [] [sampleAcceptedClaim]).1
        sampleAcceptedClaim (List.mem_singleton.mpr rfl) rfl).1
      sampleOffer (by decide)).1⟩

/-- C2: the derivation is total over its claim input.  A claim whose offer
and desire references both fail to resolve (dangling ids, or both columns
null) contributes no giving or receiving entries to any member's view, and
the room-wide loop leaves the state unchanged on it — the claim is skipped,
no error path exists. -/
theorem derivation_skips_unresolvable_claims :
    ∀ (offers desires : List Item) (c : Claim),
      resolveOffer offers c = none → resolveDesire desires c = none →
      (∀ m : String, givingEntriesOf offers desires m c = [] ∧
        receivingEntriesOf offers desires m c = []) ∧
      (∀ s : DeriveState, s.offers = offers → s.desires = desires →
        deriveStep s c = s) := by
  intro offers desires c ho hd
  constructor
  · intro m
    constructor
    · unfold givingEntriesOf
      simp [ho, hd]
    · unfold receivingEntriesOf
      simp [ho, hd]
  · intro s hso hsd
    subst hso
    subst hsd
    unfold deriveStep
    simp [ho, hd]

/-- A claim with a dangling offer id and a null desire id, for the C2
witness. -/
def danglingClaim : Claim :=
  { id := "claim-ghost", roomId := "room-1", claimerMembershipId := "B"
    offerId := some "offer-deleted", desireId := none, status := .ACCEPTED
    note := none, createdAt := 3, updatedAt := 4 }

/-- A derive state holding only the dangling claim, for the C2 witness. -/
def danglingState : DeriveState :=
  { offers := [], desires := [], claims := [danglingClaim], memberships := []
    commitments := [], givingCounts := [], receivingCounts := [] }

/-- Witness for C2: the dangling claim's references resolve to nothing and
the theorem applies, so it contributes no entries and the loop skips it. -/
theorem derivation_skips_unresolvable_claims_witness :
    resolveOffer [] danglingClaim = none ∧
    resolveDesire [] danglingClaim = none ∧
    (givingEntriesOf [] [] "A" danglingClaim = [] ∧
      receivingEntriesOf [] [] "A" danglingClaim = []) ∧
    deriveStep danglingState danglingClaim = danglingState :=
  ⟨by decide, by decide,
   (derivation_skips_unresolvable_claims [] [] danglingClaim
      (by decide) (by decide)).1 "A",
   (derivation_skips_unresolvable_claims [] [] danglingClaim
      (by decide) (by decide)).2 danglingState rfl rfl⟩

/-- One loop iteration reads the room data and writes only the commitment
and count accumulators. -/
theorem deriveStep_preserves_inputs (s : DeriveState) (c : Claim) :
    (deriveStep s c).offers = s.offers ∧ (deriveStep s c).desires = s.desires ∧
    (deriveStep s c).claims = s.claims ∧
    (deriveStep s c).memberships = s.memberships := by
  unfold deriveStep
  cases resolveOffer s.offers c with
  | none =>
    simp only []
    cases resolveDesire s.desires c with
    | none => exact ⟨rfl, rfl, rfl, rfl⟩
    | some d => exact ⟨rfl, rfl, rfl, rfl⟩
  | some o =>
    simp only []
    cases resolveDesire s.desires c with
    | none => exact ⟨rfl, rfl, rfl, rfl⟩
    | some d => exact ⟨rfl, rfl, rfl, rfl⟩

/-- Folding the loop over any claim list reads the room data and writes only
the accumulators. -/
theorem foldl_deriveStep_preserves_inputs :
    ∀ (l : List Claim) (s : DeriveState),
      (l.foldl deriveStep s).offers = s.offers ∧
      (l.foldl deriveStep s).desires = s.desires ∧
      (l.foldl deriveStep s).claims = s.claims ∧
      (l.foldl deriveStep s).memberships = s.memberships := by
  intro l
  induction l with
  | nil => intro s; exact ⟨rfl, rfl, rfl, rfl⟩
  | cons c t ih =>
    intro s
    rw [List.foldl_cons]
    obtain ⟨h1, h2, h3, h4⟩ := ih (deriveStep s c)
    obtain ⟨g1, g2, g3, g4⟩ := deriveStep_preserves_inputs s c
    exact ⟨h1.trans g1, h2.trans g2, h3.trans g3, h4.trans g4⟩

/-- C3: the commitment derivation mutates none of its inputs — after the
loop the offers, desires, claims and memberships components of the state are
unchanged — and it is deterministic: any state whose components are
structurally equal to another's derives a structurally identical output,
entry order included. -/
theorem derivation_deterministic_and_pure :
    ∀ s : DeriveState,
      ((deriveRun s).offers = s.offers ∧ (deriveRun s).desires = s.desires ∧
        (deriveRun s).claims = s.claims ∧
        (deriveRun s).memberships = s.memberships) ∧
      (∀ t : DeriveState, t.offers = s.offers → t.desires = s.desires →
        t.claims = s.claims → t.memberships = s.memberships →
        t.commitments = s.commitments → t.givingCounts = s.givingCounts →
        t.receivingCounts = s.receivingCounts →
        deriveRun t = deriveRun s) := by
  intro s
  constructor
  · exact foldl_deriveStep_preserves_inputs
      (s.claims.filter (fun c => c.status == .ACCEPTED)) s
  · intro t h1 h2 h3 h4 h5 h6 h7
    have hts : t = s := by
      cases t
      cases s
      simp_all
    rw [hts]

/-- Witness for C3: the theorem applies at a concrete state and a second,
componentwise-equal copy of it, yielding identical runs. -/
theorem derivation_deterministic_and_pure_witness :
    (deriveRun danglingState).claims = danglingState.claims ∧
    deriveRun danglingState = deriveRun danglingState :=
  ⟨(derivation_deterministic_and_pure danglingState).1.2.2.1,
   (derivation_deterministic_and_pure danglingState).2 danglingState
      rfl rfl rfl rfl rfl rfl rfl⟩

/-- The offer used by the C10 dual-target scenario, authored by A. -/
def dualOffer : Item :=
  { id := "offer-dual", roomId := "room-1", authorMembershipId := "A"
    title := "Offer title", details := none, status := .OPEN
    createdAt := 1, updatedAt := 2 }

/-- The desire used by the C10 dual-target scenario, authored by C. -/
def dualDesire : Item :=
  { id := "desire-dual", roomId := "room-1", authorMembershipId := "C"
    title := "Desire title", details := none, status := .OPEN
    createdAt := 1, updatedAt := 2 }

/-- An accepted claim by B whose offer and desire references are both
non-null and both resolvable. -/
def dualClaim : Claim :=
  { id := "claim-dual", roomId := "room-1", claimerMembershipId := "B"
    offerId := some "offer-dual", desireId := some "desire-dual"
    status := .ACCEPTED, note := none, createdAt := 3, updatedAt := 4 }

/-- The room state containing the single dual-target claim. -/
def dualState : DeriveState :=
  { offers := [dualOffer], desires := [dualDesire], claims := [dualClaim]
    memberships := [], commitments := [], givingCounts := []
    receivingCounts := [] }

/-- C10: the derivation does not enforce claim exclusivity.  On a single
accepted claim whose offer and desire references both resolve, both branches
emit: the run produces two commitments (one per branch) from that one claim,
and the giving/receiving totals count it twice — A gives to B and B gives to
C, with B also counted as receiver and C as receiver. -/
theorem derivation_double_counts_dual_target_claim :
    (deriveRun dualState).commitments =
      [{ itemTitle := "Offer title", itemDetails := none, itemType := .offer
         giverMembershipId := "A", receiverMembershipId := "B", note := none },
       { itemTitle := "Desire title", itemDetails := none, itemType := .desire
         giverMembershipId := "B", receiverMembershipId := "C", note := none }] ∧
    (deriveRun dualState).commitments.length = 2 ∧
    dualState.claims.length = 1 ∧
    getCount (deriveRun dualState).givingCounts "A" = 1 ∧
    getCount (deriveRun dualState).givingCounts "B" = 1 ∧
    getCount (deriveRun dualState).receivingCounts "B" = 1 ∧
    getCount (deriveRun dualState).receivingCounts "C" = 1 := by
  decide

end GiftCircle
